import Mathlib

/-!
# Flashcard Generation Engine — verification of the specification against the code

This file gives a shallow embedding of the flashcard-generation server
(`generate-flashcards` handler and its helper functions) and proves or refutes
the specified properties of the engine.

Modelling conventions:
* JavaScript strings are Lean `String`s; the character-level work happens on
  `List Char` (`String.data`).
* `String.prototype.split`, `trim`, `replace` (first-occurrence, string
  pattern), `indexOf`, `includes` and the two flashcard-parsing regular
  expressions are implemented faithfully, including JS artifacts such as the
  empty fragments produced by `split` and the `"undefined"` rendering of
  out-of-range template-literal lookups.
* `Math.ceil(x * 0.4)`-style float arithmetic is modelled by exact rational
  ceilings/floors over `Nat` (the float and rational values agree on the
  magnitudes reachable here).
* `Date.now()` is a parameter `now`; the random comparator passed to
  `Array.prototype.sort` in the multiple-choice builder is a parameter
  `shuffle` (theorems that need it assume it permutes its input).
* The external AI service (`fetch`) is a parameter `ai : String → Option
  String`: `none` models a transport failure or a non-ok response, `some t`
  models an ok response whose extracted `generated_text` is `t`.
* The key-value store is modelled by returning the list of performed writes;
  progress writes are returned as the ordered trace of `GenerationProgress`
  records written under the run's session key.
-/

set_option autoImplicit false

namespace StudyApp

/-! ## JavaScript string primitives -/

/-- The JS `\s` / `trim` whitespace set (ASCII part plus the Unicode spaces
JavaScript recognises). -/
def isWsChar (c : Char) : Bool :=
  c = ' ' || c = '\t' || c = '\n' || c = '\r' || c.toNat = 11 || c.toNat = 12 ||
  c.toNat = 0xa0 || c.toNat = 0x1680 || (0x2000 ≤ c.toNat && c.toNat ≤ 0x200a) ||
  c.toNat = 0x2028 || c.toNat = 0x2029 || c.toNat = 0x202f || c.toNat = 0x205f ||
  c.toNat = 0x3000 || c.toNat = 0xfeff

/-- Sentence-terminal punctuation, the class `[.!?]`. -/
def isSentChar (c : Char) : Bool :=
  c = '.' || c = '!' || c = '?'

/-- A JS `\w` word character: `[A-Za-z0-9_]`. -/
def isWordChar (c : Char) : Bool :=
  ('a' ≤ c && c ≤ 'z') || ('A' ≤ c && c ≤ 'Z') || ('0' ≤ c && c ≤ '9') || c = '_'

/-- Core of `String.prototype.split` with a character-class regex such as
`/\s+/` or `/[.!?]+/`: split on maximal runs of separator characters, keeping
the (possibly empty) fragments at both ends.  `inSep` records whether we are
inside a separator run that has already emitted its fragment. -/
def jsSplitAux (isSep : Char → Bool) : Bool → List Char → List Char → List String
  | _, [], acc => [String.mk acc.reverse]
  | inSep, c :: cs, acc =>
    if isSep c then
      if inSep then jsSplitAux isSep true cs acc
      else String.mk acc.reverse :: jsSplitAux isSep true cs []
    else jsSplitAux isSep false cs (c :: acc)

/-- `s.split(/X+/)` for a character class `X`. -/
def jsSplit (isSep : Char → Bool) (s : String) : List String :=
  jsSplitAux isSep false s.data []

/-- Core of `String.prototype.split` with a one-character string separator
(`sentence.split(' ')`): split at every separator occurrence, no collapsing. -/
def splitCharAux (sep : Char) : List Char → List Char → List (List Char)
  | [], acc => [acc.reverse]
  | c :: cs, acc =>
    if c = sep then acc.reverse :: splitCharAux sep cs []
    else splitCharAux sep cs (c :: acc)

/-- `s.split(sep)` for a single-character separator string. -/
def splitStr (sep : Char) (s : String) : List String :=
  (splitCharAux sep s.data []).map String.mk

/-- `String.prototype.trim`. -/
def jsTrim (s : String) : String :=
  String.mk (((s.data.dropWhile isWsChar).reverse.dropWhile isWsChar).reverse)

/-- `word.replace(/[^\w]/g, '')`. -/
def cleanWord (s : String) : String :=
  String.mk (s.data.filter isWordChar)

/-- `s.toLowerCase()` (ASCII case mapping). -/
def lowerStr (s : String) : String :=
  String.mk (s.data.map Char.toLower)

/-- `w.leadsWith s`: `w` is a leading segment of `s` (Bool-valued). -/
def leadsWith : List Char → List Char → Bool
  | [], _ => true
  | _ :: _, [] => false
  | a :: as, b :: bs => a = b && leadsWith as bs

/-- Scan for the first position at or after the current one where `w` starts;
core of `String.prototype.indexOf`/`replace` with a string pattern. -/
def findSubstrAux (w : List Char) : List Char → Nat → Option Nat
  | [], i => if leadsWith w [] then some i else none
  | c :: rest, i =>
    if leadsWith w (c :: rest) then some i else findSubstrAux w rest (i + 1)

/-- Index of the first occurrence of `w` in `s`, if any. -/
def findSubstr (w s : List Char) : Option Nat :=
  findSubstrAux w s 0

/-- `hay.includes(needle)`. -/
def jsIncludes (hay needle : String) : Bool :=
  (findSubstr needle.data hay.data).isSome

/-- `s.replace(w, m)` with a string pattern: replace the first occurrence of
`w`, or return `s` unchanged when there is none (the replacement contains no
`$` patterns). -/
def replaceFirst (s w m : List Char) : List Char :=
  match findSubstr w s with
  | none => s
  | some i => s.take i ++ m ++ s.drop (i + w.length)

/-- String wrapper for `replaceFirst`. -/
def replaceFirstStr (s w m : String) : String :=
  String.mk (replaceFirst s.data w.data m.data)

/-- All positions at which `w` occurs in `u`. -/
def occList (w u : List Char) : List Nat :=
  (List.range (u.length + 1)).filter (fun i => leadsWith w (u.drop i))

/-- `[...new Set(l)]`: deduplicate keeping first occurrences, in order. -/
def jsDedupAux : List String → List String → List String
  | [], _ => []
  | x :: xs, seen =>
    if x ∈ seen then jsDedupAux xs seen else x :: jsDedupAux xs (x :: seen)

/-- `[...new Set(l)]`. -/
def jsDedup (l : List String) : List String :=
  jsDedupAux l []

/-- `l.indexOf(x)`: first index of `x`, `-1` when absent. -/
def jsIndexOfAux : List String → String → Int → Int
  | [], _, _ => -1
  | y :: ys, x, i => if y = x then i else jsIndexOfAux ys x (i + 1)

/-- `l.indexOf(x)`. -/
def jsIndexOf (l : List String) (x : String) : Int :=
  jsIndexOfAux l x 0

end StudyApp

namespace StudyApp

/-! ## Data model -/

/-- A generated flashcard, as built by the generators (persistence fields are
attached later by `saveFlashcards`). -/
structure Flashcard where
  id : String
  question : String
  answer : String
  difficulty : String
  type : String
deriving DecidableEq, Repr

/-- One progress record written under `progress:{sessionId}`. -/
structure GenProgress where
  current : Nat
  total : Nat
  status : String
deriving DecidableEq, Repr

/-- The notes snapshot written under `notes:{userId}:{noteId}`. -/
structure NoteRecord where
  id : String
  content : String
  createdAt : Nat
deriving DecidableEq, Repr

/-- A flashcard as persisted: the generated card spread together with
`userId`, `noteId` and `createdAt`. -/
structure SavedFlashcard where
  card : Flashcard
  userId : String
  noteId : String
  createdAt : Nat
deriving DecidableEq, Repr

/-- A value written to the key-value store. -/
inductive KvValue where
  | progress (p : GenProgress)
  | note (n : NoteRecord)
  | card (c : SavedFlashcard)
deriving DecidableEq, Repr

/-- One `kv.set(key, value)` call. -/
structure KvWrite where
  key : String
  value : KvValue
deriving DecidableEq, Repr

/-- The JSON reply of the `generate-flashcards` handler. -/
inductive EndpointResult where
  | ok (flashcards : List SavedFlashcard) (totalGenerated : Nat)
  | invalidInput
deriving DecidableEq, Repr

/-! ## Sizing estimator (`calculateQuestionCount`) -/

/-- `notes.split(/\s+/).length`. -/
def wordCount (notes : String) : Nat :=
  (jsSplit isWsChar notes).length

/-- `notes.split(/[.!?]+/).filter(s => s.trim().length > 10)` — the usable
sentence pool shared by the sizing estimator and the heuristic generator. -/
def sentencesOf (notes : String) : List String :=
  (jsSplit isSentChar notes).filter (fun s => 10 < (jsTrim s).length)

/-- `calculateQuestionCount`: the four-bucket step function on word count.
`Math.floor(sentenceCount * 0.7)` etc. are the exact rational floors. -/
def calculateQuestionCount (notes : String) : Nat :=
  let wc := wordCount notes
  let sc := (sentencesOf notes).length
  if wc < 100 then min 5 sc
  else if wc < 300 then min 10 (7 * sc / 10)
  else if wc < 600 then min 20 (sc / 2)
  else min 30 (2 * sc / 5)

/-- The sizing estimator exactly as the specification words it: the sentence
count "discards fragments shorter than 10 characters", i.e. keeps every
fragment whose trimmed length is at least 10. -/
def calculateQuestionCountClaimed (notes : String) : Nat :=
  let wc := wordCount notes
  let sc := ((jsSplit isSentChar notes).filter (fun s => 10 ≤ (jsTrim s).length)).length
  if wc < 100 then min 5 sc
  else if wc < 300 then min 10 (7 * sc / 10)
  else if wc < 600 then min 20 (sc / 2)
  else min 30 (2 * sc / 5)

/-- The sizing estimator as the amended specification words it: the sentence
count discards fragments of trimmed length at most 10 characters, i.e. keeps
only fragments strictly longer than 10 characters after trimming. -/
def calculateQuestionCountAmended (notes : String) : Nat :=
  let wc := wordCount notes
  let sc := ((jsSplit isSentChar notes).filter (fun s => 10 < (jsTrim s).length)).length
  if wc < 100 then min 5 sc
  else if wc < 300 then min 10 (7 * sc / 10)
  else if wc < 600 then min 20 (sc / 2)
  else min 30 (2 * sc / 5)

/-! ## Key-term extractor (`extractKeyTerms`) -/

/-- `word.match(/^[A-Z][a-z]+/)`: an ASCII capital followed by at least one
ASCII lowercase letter. -/
def startsCapLower (s : String) : Bool :=
  match s.data with
  | a :: b :: _ => ('A' ≤ a && a ≤ 'Z') && ('a' ≤ b && b ≤ 'z')
  | _ => false

/-- `termFreq[cleaned] = (termFreq[cleaned] || 0) + 1` on an insertion-ordered
association list (a plain JS object used as a map). -/
def bumpFreq : List (String × Nat) → String → List (String × Nat)
  | [], k => [(k, 1)]
  | (k', n) :: rest, k =>
    if k' = k then (k', n + 1) :: rest else (k', n) :: bumpFreq rest k

/-- Numeric value of a decimal digit string. -/
def natOfDigits : List Char → Nat → Nat
  | [], acc => acc
  | c :: cs, acc => natOfDigits cs (acc * 10 + (c.toNat - 48))

/-- Whether a JS object key is an array-index-like key (canonical decimal
below `2^32 - 1`); such keys are enumerated first, in ascending order. -/
def isArrayIndexKey (s : String) : Bool :=
  !s.data.isEmpty && s.data.all Char.isDigit &&
    toString (natOfDigits s.data 0) = s && decide (natOfDigits s.data 0 < 4294967295)

/-- Insert into a list sorted ascending by numeric key value. -/
def insertByNumKey (x : String × Nat) : List (String × Nat) → List (String × Nat)
  | [] => [x]
  | y :: ys =>
    if natOfDigits x.1.data 0 ≤ natOfDigits y.1.data 0 then x :: y :: ys
    else y :: insertByNumKey x ys

/-- Sort ascending by numeric key value (insertion sort). -/
def sortByNumKey : List (String × Nat) → List (String × Nat)
  | [] => []
  | x :: xs => insertByNumKey x (sortByNumKey xs)

/-- `Object.entries` order for a JS object: array-index-like keys ascending,
then the remaining keys in insertion order. -/
def jsEntries (m : List (String × Nat)) : List (String × Nat) :=
  sortByNumKey (m.filter (fun e => isArrayIndexKey e.1))
    ++ m.filter (fun e => !isArrayIndexKey e.1)

/-- `extractKeyTerms`: capitalized words (raw length > 3, stripped of
non-word characters) plus cleaned lower-cased words of length > 4 occurring
more than once; deduplicated, first 20. -/
def extractKeyTerms (text : String) : List String :=
  let words := jsSplit isWsChar text
  let step := words.foldl
    (fun (st : List (String × Nat) × List String) word =>
      let cleaned := lowerStr (cleanWord word)
      let freq := if 3 < cleaned.length then bumpFreq st.1 cleaned else st.1
      let terms :=
        if startsCapLower word && 3 < word.length then st.2 ++ [cleanWord word]
        else st.2
      (freq, terms))
    ([], [])
  let withFreq := step.2 ++
    ((jsEntries step.1).filter (fun e => 1 < e.2 && 4 < e.1.length)).map (·.1)
  (jsDedup withFreq).take 20

end StudyApp

namespace StudyApp

/-! ## Heuristic card builders -/

/-- The blank marker inserted by the fill-in-blank builder. -/
def blankMarker : String := "______"

/-- `generateFillInBlankCard(sentences, index)`. -/
def generateFillInBlankCard (sentences : List String) (index now : Nat) :
    Option Flashcard :=
  match sentences with
  | [] => none
  | _ :: _ =>
    let sentence := jsTrim (sentences.getD (index % sentences.length) "")
    let words := splitStr ' ' sentence
    if 5 < words.length then
      let keyWordIndex := words.length / 2
      let kw := words.getD keyWordIndex ""
      some { id := "card_" ++ toString now ++ "_" ++ toString index ++ "_fill",
             question := "Fill in the blank: " ++ replaceFirstStr sentence kw blankMarker,
             answer := cleanWord kw,
             difficulty := "basic",
             type := "fill_blank" }
    else none

/-- `generateDefinitionCard(keyTerms, sentences, index)`. -/
def generateDefinitionCard (keyTerms sentences : List String) (index now : Nat) :
    Option Flashcard :=
  match keyTerms with
  | [] => none
  | _ :: _ =>
    let term := keyTerms.getD (index % keyTerms.length) ""
    match sentences.find? (fun s => jsIncludes (lowerStr s) (lowerStr term)) with
    | none => none
    | some relevantSentence =>
      some { id := "card_" ++ toString now ++ "_" ++ toString index ++ "_def",
             question := "What is " ++ term ++ "?",
             answer := jsTrim relevantSentence,
             difficulty := "intermediate",
             type := "definition" }

/-- `generateTrueFalseCard(sentences, index)`. -/
def generateTrueFalseCard (sentences : List String) (index now : Nat) :
    Option Flashcard :=
  match sentences with
  | [] => none
  | _ :: _ =>
    let sentence := jsTrim (sentences.getD (index % sentences.length) "")
    some { id := "card_" ++ toString now ++ "_" ++ toString index ++ "_tf",
           question := "True or False: " ++ sentence,
           answer := "True",
           difficulty := "basic",
           type := "true_false" }

/-- The four template-literal option values `${choices[0]}`, `${choices[1]}`,
`${choices[2]}` and `${choices[3] || 'None of the above'}` shown in a
multiple-choice question: a missing index renders as `"undefined"`, and only
the fourth slot falls back to `"None of the above"`. -/
def mcOptions (choices : List String) : List String :=
  [(choices.get? 0).getD "undefined",
   (choices.get? 1).getD "undefined",
   (choices.get? 2).getD "undefined",
   match choices.get? 3 with
   | some s => if s = "" then "None of the above" else s
   | none => "None of the above"]

/-- The multiple-choice question text rendered from the sentence and the four
displayed option values. -/
def mcQuestion (relevantSentence : String) (opts : List String) : String :=
  "Which term is described by: \"" ++ relevantSentence ++ "\"?\nA) " ++
    opts.getD 0 "" ++ "\nB) " ++ opts.getD 1 "" ++ "\nC) " ++ opts.getD 2 "" ++
    "\nD) " ++ opts.getD 3 ""

/-- `generateMultipleChoiceCard(sentences, keyTerms, index)`. The random
comparator of `[term, ...otherTerms].sort(() => Math.random() - 0.5)` is
abstracted by the `shuffle` parameter. -/
def generateMultipleChoiceCard (sentences keyTerms : List String) (index : Nat)
    (shuffle : List String → List String) (now : Nat) : Option Flashcard :=
  match keyTerms, sentences with
  | [], _ => none
  | _, [] => none
  | _ :: _, _ :: _ =>
    let term := keyTerms.getD (index % keyTerms.length) ""
    match sentences.find? (fun s => jsIncludes (lowerStr s) (lowerStr term)) with
    | none => none
    | some relevantSentence =>
      let otherTerms := (keyTerms.filter (fun t => t ≠ term)).take 3
      let choices := shuffle (term :: otherTerms)
      some { id := "card_" ++ toString now ++ "_" ++ toString index ++ "_mc",
             question := mcQuestion relevantSentence (mcOptions choices),
             answer := String.mk [Char.ofNat (65 + jsIndexOf choices term).toNat]
                         ++ ") " ++ term,
             difficulty := "advanced",
             type := "multiple_choice" }

/-! ## Heuristic generation coordinator (`generateAdvancedFlashcards`) -/

/-- `Math.ceil(target * (w / 10))` for a weight of `w` tenths, in exact
rational arithmetic. -/
def ceilTenths (w target : Nat) : Nat :=
  (w * target + 9) / 10

/-- One archetype's inner loop: up to `n` attempts, stopping early at the
global target; the builder is fed the running card count as its cursor and
a failed attempt burns quota without advancing the cursor. -/
def runArchetype (build : Nat → Option Flashcard) (target : Nat) :
    Nat → List Flashcard → List Flashcard
  | 0, cards => cards
  | n + 1, cards =>
    if cards.length < target then
      match build cards.length with
      | some c => runArchetype build target n (cards ++ [c])
      | none => runArchetype build target n cards
    else cards

/-- `generateAdvancedFlashcards(notes, targetCount)`: fixed archetype weights
fill-blank 0.3, definition 0.3, true/false 0.2, multiple-choice 0.2. -/
def generateAdvancedFlashcards (notes : String) (targetCount : Nat)
    (shuffle : List String → List String) (now : Nat) : List Flashcard :=
  let sentences := sentencesOf notes
  let keyTerms := extractKeyTerms notes
  let c1 := runArchetype (fun i => generateFillInBlankCard sentences i now)
    targetCount (ceilTenths 3 targetCount) []
  let c2 := runArchetype (fun i => generateDefinitionCard keyTerms sentences i now)
    targetCount (ceilTenths 3 targetCount) c1
  let c3 := runArchetype (fun i => generateTrueFalseCard sentences i now)
    targetCount (ceilTenths 2 targetCount) c2
  let c4 := runArchetype
    (fun i => generateMultipleChoiceCard sentences keyTerms i shuffle now)
    targetCount (ceilTenths 2 targetCount) c3
  c4.take targetCount

end StudyApp

namespace StudyApp

/-! ## AI tier coordinator -/

/-- `createPromptForDifficulty(notes, count, difficulty)`. -/
def createPromptForDifficulty (notes : String) (count : Nat) (difficulty : String) :
    String :=
  let basePrompt := "Based on these study notes, generate " ++ toString count ++
    " question and answer pairs for flashcards."
  if difficulty = "basic" then
    basePrompt ++ " Focus on basic facts, definitions, and simple recall questions." ++
      " Format each as \"Q: [question] A: [answer]\". Notes: " ++ notes
  else if difficulty = "intermediate" then
    basePrompt ++ " Focus on understanding, application, and analysis questions" ++
      " that require deeper thinking." ++
      " Format each as \"Q: [question] A: [answer]\". Notes: " ++ notes
  else if difficulty = "advanced" then
    basePrompt ++ " Focus on synthesis, evaluation, and critical thinking questions" ++
      " that require connecting multiple concepts." ++
      " Format each as \"Q: [question] A: [answer]\". Notes: " ++ notes
  else
    basePrompt ++ " Format each as \"Q: [question] A: [answer]\". Notes: " ++ notes

/-! ### The parsing regexes

`parseFlashcards` scans the generated text with
`/Q:\s*(.+?)\s*A:\s*(.+?)(?=Q:|$)/gi` and then re-matches every full match
with `/Q:\s*(.+?)\s*A:\s*(.+)/i`.  Both patterns are implemented below as
backtracking matchers in continuation-passing style; each combinator tries
alternatives in the preference order of the JS engine (greedy `\s*` longest
first, lazy `.+?` shortest first). -/

/-- `.` without the `s` flag: any character except a line terminator. -/
def dotChar (c : Char) : Bool :=
  !(c = '\n' || c = '\r' || c.toNat = 0x2028 || c.toNat = 0x2029)

/-- Match `Q:` case-insensitively, then continue. -/
def qColonCI {α : Type} (k : List Char → Option α) (s : List Char) : Option α :=
  match s with
  | c1 :: c2 :: rest =>
    if (c1 = 'q' || c1 = 'Q') && c2 = ':' then k rest else none
  | _ => none

/-- Match `A:` case-insensitively, then continue. -/
def aColonCI {α : Type} (k : List Char → Option α) (s : List Char) : Option α :=
  match s with
  | c1 :: c2 :: rest =>
    if (c1 = 'a' || c1 = 'A') && c2 = ':' then k rest else none
  | _ => none

/-- Greedy `\s*`: consume as much whitespace as possible, backtracking one
character at a time. -/
def wsStarG {α : Type} (k : List Char → Option α) : List Char → Option α
  | [] => k []
  | c :: cs =>
    if isWsChar c then
      match wsStarG k cs with
      | some r => some r
      | none => k (c :: cs)
    else k (c :: cs)

/-- Lazy `(.+?)`: consume at least one non-terminator character, preferring
as few as possible; the continuation receives the captured group and the
rest. -/
def dotPlusLazy {α : Type} (k : List Char → List Char → Option α) :
    List Char → List Char → Option α
  | _, [] => none
  | acc, c :: cs =>
    if dotChar c then
      match k (acc ++ [c]) cs with
      | some r => some r
      | none => dotPlusLazy k (acc ++ [c]) cs
    else none

/-- Greedy `(.+)`: consume at least one non-terminator character, preferring
as many as possible. -/
def dotPlusGreedy {α : Type} (k : List Char → List Char → Option α) :
    List Char → List Char → Option α
  | _, [] => none
  | acc, c :: cs =>
    if dotChar c then
      match dotPlusGreedy k (acc ++ [c]) cs with
      | some r => some r
      | none => k (acc ++ [c]) cs
    else none

/-- The lookahead `(?=Q:|$)` (no `m` flag: `$` is the end of the input). -/
def lookaheadQEnd (s : List Char) : Bool :=
  match s with
  | [] => true
  | c1 :: c2 :: _ => (c1 = 'q' || c1 = 'Q') && c2 = ':'
  | _ => false

/-- Try to match `Q:\s*(.+?)\s*A:\s*(.+?)(?=Q:|$)` starting exactly at the
head of `r`; returns the rest of the input after the match. -/
def matchPairAt (r : List Char) : Option (List Char) :=
  qColonCI (fun s1 =>
    wsStarG (fun s2 =>
      dotPlusLazy (fun _q s3 =>
        wsStarG (fun s4 =>
          aColonCI (fun s5 =>
            wsStarG (fun s6 =>
              dotPlusLazy (fun _a s7 =>
                if lookaheadQEnd s7 then some s7 else none) [] s6) s5) s4) s3)
        [] s2) s1) r

/-- The `g`-flag scan of `generatedText.match(...)`: collect the full match
substrings left to right; on failure at a position, advance one character.
`fuel` bounds the scan by the input length (every step consumes input). -/
def scanPairsAux : Nat → List Char → List (List Char)
  | 0, _ => []
  | fuel + 1, r =>
    match matchPairAt r with
    | some rest => r.take (r.length - rest.length) :: scanPairsAux fuel rest
    | none =>
      match r with
      | [] => []
      | _ :: tail => scanPairsAux fuel tail

/-- All full matches of the pair regex in `text`. -/
def scanPairs (text : List Char) : List (List Char) :=
  scanPairsAux (text.length + 1) text

/-- Try to match `Q:\s*(.+?)\s*A:\s*(.+)` starting exactly at the head of
`r`, returning the two captured groups. -/
def matchQAGroupsAt (r : List Char) : Option (List Char × List Char) :=
  qColonCI (fun s1 =>
    wsStarG (fun s2 =>
      dotPlusLazy (fun q s3 =>
        wsStarG (fun s4 =>
          aColonCI (fun s5 =>
            wsStarG (fun s6 =>
              dotPlusGreedy (fun a _s7 => some (q, a)) [] s6) s5) s4) s3)
        [] s2) s1) r

/-- `pair.match(/Q:\s*(.+?)\s*A:\s*(.+)/i)` (no `g` flag): the leftmost
match's groups. -/
def matchQAGroups : Nat → List Char → Option (List Char × List Char)
  | 0, _ => none
  | fuel + 1, r =>
    match matchQAGroupsAt r with
    | some g => some g
    | none =>
      match r with
      | [] => none
      | _ :: tail => matchQAGroups fuel tail

/-- `parseFlashcards(generatedText, originalNotes, difficulty)`. -/
def parseFlashcards (generatedText : String) (_originalNotes : String)
    (difficulty : String) (now : Nat) : List Flashcard :=
  let qaPairs := scanPairs generatedText.data
  (qaPairs.enum.filterMap (fun (p : Nat × List Char) =>
    match matchQAGroups (p.2.length + 1) p.2 with
    | none => none
    | some g =>
      some { id := "card_" ++ toString now ++ "_" ++ toString p.1 ++ "_" ++ difficulty,
             question := jsTrim (String.mk g.1),
             answer := jsTrim (String.mk g.2),
             difficulty := difficulty,
             type := "ai_generated" }))

/-- The three difficulty tiers with their quotas:
`Math.ceil(target * 0.4)` basic and intermediate, `Math.floor(target * 0.2)`
advanced. -/
def questionTypes (target : Nat) : List (Nat × String) :=
  [(ceilTenths 4 target, "basic"),
   (ceilTenths 4 target, "intermediate"),
   (target / 5, "advanced")]

/-- The tier loop of `generateFlashcardsWithProgress`: for each tier, query
the AI service with the tier prompt; on success parse the text and append a
progress record with the new running total; on failure (transport error or
non-ok response) log and continue with the next tier. -/
def runTiers (notes : String) (target : Nat) (ai : String → Option String)
    (now : Nat) :
    List (Nat × String) → List Flashcard → List GenProgress →
      List Flashcard × List GenProgress
  | [], cards, trace => (cards, trace)
  | (count, difficulty) :: rest, cards, trace =>
    match ai (createPromptForDifficulty notes count difficulty) with
    | none => runTiers notes target ai now rest cards trace
    | some txt =>
      let cards' := cards ++ parseFlashcards txt notes difficulty now
      runTiers notes target ai now rest cards'
        (trace ++ [{ current := cards'.length, total := target,
                     status := "generating" }])

/-- `generateFlashcardsWithProgress(notes, targetQuestions, apiKey)`:
returns the cards handed back to the handler together with the ordered trace
of progress records written under `progress:session_{now}`. -/
def generateFlashcardsWithProgress (notes : String) (targetQuestions : Nat)
    (ai : String → Option String) (shuffle : List String → List String)
    (now : Nat) : List Flashcard × List GenProgress :=
  let init : GenProgress :=
    { current := 0, total := targetQuestions, status := "generating" }
  let r := runTiers notes targetQuestions ai now (questionTypes targetQuestions)
    [] [init]
  let cards :=
    if r.1.length < targetQuestions then
      r.1 ++ generateAdvancedFlashcards notes (targetQuestions - r.1.length)
        shuffle now
    else r.1
  (cards.take targetQuestions,
   r.2 ++ [{ current := cards.length, total := targetQuestions,
             status := "completed" }])

/-! ## Persistence and the handler -/

/-- `saveFlashcards(flashcards, userId, originalNotes)`: write the note
record, then every card enriched with `userId`, `noteId` and `createdAt`;
returns the saved cards and the performed writes in order. -/
def saveFlashcards (cards : List Flashcard) (userId notes : String) (now : Nat) :
    List SavedFlashcard × List KvWrite :=
  let noteId := "note_" ++ toString now
  let saved := cards.map (fun c =>
    { card := c, userId := userId, noteId := noteId, createdAt := now })
  (saved,
   { key := "notes:" ++ userId ++ ":" ++ noteId,
     value := KvValue.note { id := noteId, content := notes, createdAt := now } } ::
     saved.map (fun sc =>
       { key := "flashcards:" ++ userId ++ ":" ++ sc.card.id,
         value := KvValue.card sc }))

/-- The session key of one generation run. -/
def progressKey (now : Nat) : String :=
  "progress:session_" ++ toString now

/-- The `generate-flashcards` handler.  `notes = none` models a non-string
`notes` field; `apiKey` is `Deno.env.get('HUGGINGFACE_API_KEY')`.  `aiFatal`
models an error escaping `generateFlashcardsWithProgress` as a whole (e.g. a
progress-store write failure): the handler catches it and falls back to the
heuristic generator.  The store itself is modelled as non-failing, so the
outer 500 branch is unreachable and not represented. -/
def generateFlashcardsEndpoint (notes : Option String) (userId : String)
    (apiKey : Option String) (ai : String → Option String) (aiFatal : Bool)
    (shuffle : List String → List String) (now : Nat) :
    EndpointResult × List KvWrite :=
  match notes with
  | none => (EndpointResult.invalidInput, [])
  | some ns =>
    if ns = "" then (EndpointResult.invalidInput, [])
    else
      let target := calculateQuestionCount ns
      match apiKey with
      | none =>
        let cards := generateAdvancedFlashcards ns target shuffle now
        let s := saveFlashcards cards userId ns now
        (EndpointResult.ok s.1 cards.length, s.2)
      | some _ =>
        if aiFatal then
          let cards := generateAdvancedFlashcards ns target shuffle now
          let s := saveFlashcards cards userId ns now
          (EndpointResult.ok s.1 cards.length, s.2)
        else
          let r := generateFlashcardsWithProgress ns target ai shuffle now
          let s := saveFlashcards r.1 userId ns now
          (EndpointResult.ok s.1 r.1.length,
           r.2.map (fun p => { key := progressKey now, value := KvValue.progress p })
             ++ s.2)

/-- Parse the option letter back out of a multiple-choice answer string:
its first character, decoded as an index (`'A'` ↦ 0, …, `'D'` ↦ 3). -/
def parseAnswerIdx (s : String) : Option Nat :=
  s.data.head?.map (fun ch => ch.toNat - 65)

/-- The trimmed sentence the fill-in-blank builder selects (its internal
`sentence`). -/
@[reducible] def fbSentence (sentences : List String) (index : Nat) : String :=
  jsTrim (sentences.getD (index % sentences.length) "")

/-- Its single-space-separated words (the builder's internal `words`). -/
@[reducible] def fbWords (sentences : List String) (index : Nat) : List String :=
  splitStr ' ' (fbSentence sentences index)

/-- The middle-index word the builder blanks out (its internal
`words[keyWordIndex]`). -/
@[reducible] def fbWord (sentences : List String) (index : Nat) : String :=
  (fbWords sentences index).getD ((fbWords sentences index).length / 2) ""

end StudyApp

namespace StudyApp

/-! ## Claim C5 — sizing estimator -/

/-- Claim C5, counterexample: the claim's own filter ("discarding fragments
shorter than 10 characters") keeps a 10-character fragment, but the code
(`s.trim().length > 10`) discards it, so the two step functions disagree on
`"abcdefghij."`: the code returns 0, the claimed function returns 1. -/
theorem sizing_threshold_cex :
    calculateQuestionCount "abcdefghij." = 0 ∧
    calculateQuestionCountClaimed "abcdefghij." = 1 := by
  constructor <;> decide

/-- Claim C5, amended: for every notes string the sizing estimator is the
pure four-bucket step function of word count given in the claim, with the
sentence filter amended to discard fragments whose trimmed length is at most
10 characters (keeping only fragments strictly longer than 10); it returns 0
whenever there is no usable sentence (non-negativity is inherent in the
`Nat`-valued model). -/
theorem sizing_step_function (notes : String) :
    calculateQuestionCount notes = calculateQuestionCountAmended notes ∧
    (sentencesOf notes = [] → calculateQuestionCount notes = 0) := by
  refine ⟨rfl, fun h => ?_⟩
  unfold calculateQuestionCount
  rw [h]
  simp

/-- Witness for `sizing_step_function` at the empty notes string. -/
theorem sizing_step_function_witness :
    sentencesOf "" = [] ∧ calculateQuestionCount "" = 0 :=
  ⟨by decide, (sizing_step_function "").2 (by decide)⟩

end StudyApp

namespace StudyApp

/-! ## Claim C3 — never more cards than requested -/

/-- Claim C3: for every notes input and target count, both the AI-tier path
(`generateFlashcardsWithProgress`) and the heuristic path
(`generateAdvancedFlashcards`) return at most `target` flashcards, for any
outcome of the AI tiers, of the shuffle and of the heuristic backfill: both
end by truncating to the target. -/
theorem generation_at_most_target (notes : String) (target now : Nat)
    (ai : String → Option String) (shuffle : List String → List String) :
    (generateFlashcardsWithProgress notes target ai shuffle now).1.length ≤ target ∧
    (generateAdvancedFlashcards notes target shuffle now).length ≤ target :=
  ⟨List.length_take_le _ _, List.length_take_le _ _⟩

/-! ## Claim C7 — invalid input fails fast with no side effects -/

/-- Claim C7: for `notes` equal to the empty string or a non-string value,
the handler answers `InvalidInput` immediately and performs no store write:
no note record, no flashcard and no progress record. -/
theorem invalid_input_no_writes (userId : String) (apiKey : Option String)
    (ai : String → Option String) (aiFatal : Bool)
    (shuffle : List String → List String) (now : Nat) :
    generateFlashcardsEndpoint none userId apiKey ai aiFatal shuffle now =
      (EndpointResult.invalidInput, []) ∧
    generateFlashcardsEndpoint (some "") userId apiKey ai aiFatal shuffle now =
      (EndpointResult.invalidInput, []) :=
  ⟨rfl, rfl⟩

end StudyApp

namespace StudyApp

/-! ## Supporting lemmas about the heuristic coordinator -/

/-- Every card added by one archetype loop either was already there or was
produced by the archetype's builder. -/
theorem runArchetype_mem {build : Nat → Option Flashcard} {target : Nat}
    {P : Flashcard → Prop} (hb : ∀ i c, build i = some c → P c) :
    ∀ n cards, (∀ c ∈ cards, P c) →
      ∀ c ∈ runArchetype build target n cards, P c := by
  intro n
  induction n with
  | zero => intro cards hc c hmem; exact hc c hmem
  | succ k ih =>
    intro cards hc c hmem
    unfold runArchetype at hmem
    split at hmem
    · rcases hbuild : build cards.length with _ | c'
      · rw [hbuild] at hmem
        exact ih cards hc c hmem
      · rw [hbuild] at hmem
        refine ih (cards ++ [c']) ?_ c hmem
        intro x hx
        rcases List.mem_append.mp hx with hx | hx
        · exact hc x hx
        · rcases List.mem_singleton.mp hx with rfl
          exact hb _ _ hbuild
    · exact hc c hmem

/-- Shape of a fill-in-blank card. -/
theorem fill_card_shape {sentences : List String} {i now : Nat} {c : Flashcard}
    (h : generateFillInBlankCard sentences i now = some c) :
    c.type = "fill_blank" ∧ c.difficulty = "basic" := by
  unfold generateFillInBlankCard at h
  rcases sentences with _ | ⟨a, l⟩
  · exact absurd h (by simp)
  · simp only at h
    split at h
    · injection h with h; subst h; exact ⟨rfl, rfl⟩
    · exact absurd h (by simp)

/-- Shape of a definition card. -/
theorem definition_card_shape {keyTerms sentences : List String} {i now : Nat}
    {c : Flashcard} (h : generateDefinitionCard keyTerms sentences i now = some c) :
    c.type = "definition" ∧ c.difficulty = "intermediate" := by
  unfold generateDefinitionCard at h
  rcases keyTerms with _ | ⟨a, l⟩
  · exact absurd h (by simp)
  · simp only at h
    rcases hf : (sentences.find? fun s =>
        jsIncludes (lowerStr s) (lowerStr ((a :: l).getD (i % (a :: l).length) ""))) with
      _ | rs
    · rw [hf] at h; exact absurd h (by simp)
    · rw [hf] at h
      injection h with h; subst h; exact ⟨rfl, rfl⟩

/-- Shape of a true/false card. -/
theorem true_false_card_shape {sentences : List String} {i now : Nat}
    {c : Flashcard} (h : generateTrueFalseCard sentences i now = some c) :
    c.type = "true_false" ∧ c.difficulty = "basic" := by
  unfold generateTrueFalseCard at h
  rcases sentences with _ | ⟨a, l⟩
  · exact absurd h (by simp)
  · injection h with h; subst h; exact ⟨rfl, rfl⟩

/-- Shape of a multiple-choice card. -/
theorem multiple_choice_card_shape {sentences keyTerms : List String} {i now : Nat}
    {shuffle : List String → List String} {c : Flashcard}
    (h : generateMultipleChoiceCard sentences keyTerms i shuffle now = some c) :
    c.type = "multiple_choice" ∧ c.difficulty = "advanced" := by
  unfold generateMultipleChoiceCard at h
  rcases keyTerms with _ | ⟨a, l⟩
  · exact absurd h (by simp)
  · rcases sentences with _ | ⟨b, m⟩
    · exact absurd h (by simp)
    · simp only at h
      rcases hf : ((b :: m).find? fun s =>
          jsIncludes (lowerStr s) (lowerStr ((a :: l).getD (i % (a :: l).length) ""))) with
        _ | rs
      · rw [hf] at h; exact absurd h (by simp)
      · rw [hf] at h
        injection h with h; subst h; exact ⟨rfl, rfl⟩

/-! ## Claim C10 — archetype fixes difficulty and type -/

/-- Claim C10: every card produced by the heuristic path carries the
difficulty fixed by its archetype — `fill_blank` and `true_false` cards are
`basic`, `definition` cards `intermediate`, `multiple_choice` cards
`advanced` — and no other type/difficulty combination occurs. -/
theorem heuristic_difficulty_type (notes : String) (target now : Nat)
    (shuffle : List String → List String) (c : Flashcard)
    (hc : c ∈ generateAdvancedFlashcards notes target shuffle now) :
    (c.type = "fill_blank" ∧ c.difficulty = "basic") ∨
    (c.type = "definition" ∧ c.difficulty = "intermediate") ∨
    (c.type = "true_false" ∧ c.difficulty = "basic") ∨
    (c.type = "multiple_choice" ∧ c.difficulty = "advanced") := by
  classical
  let P : Flashcard → Prop := fun x =>
    (x.type = "fill_blank" ∧ x.difficulty = "basic") ∨
    (x.type = "definition" ∧ x.difficulty = "intermediate") ∨
    (x.type = "true_false" ∧ x.difficulty = "basic") ∨
    (x.type = "multiple_choice" ∧ x.difficulty = "advanced")
  let sents := sentencesOf notes
  let terms := extractKeyTerms notes
  have h0 : ∀ x ∈ ([] : List Flashcard), P x := by simp
  have h1 : ∀ x ∈ runArchetype (fun i => generateFillInBlankCard sents i now)
      target (ceilTenths 3 target) [], P x :=
    runArchetype_mem (fun _ x hx => Or.inl (fill_card_shape hx)) _ _ h0
  have h2 : ∀ x ∈ runArchetype (fun i => generateDefinitionCard terms sents i now)
      target (ceilTenths 3 target)
      (runArchetype (fun i => generateFillInBlankCard sents i now)
        target (ceilTenths 3 target) []), P x :=
    runArchetype_mem (fun _ x hx => Or.inr (Or.inl (definition_card_shape hx))) _ _ h1
  have h3 : ∀ x ∈ runArchetype (fun i => generateTrueFalseCard sents i now)
      target (ceilTenths 2 target)
      (runArchetype (fun i => generateDefinitionCard terms sents i now)
        target (ceilTenths 3 target)
        (runArchetype (fun i => generateFillInBlankCard sents i now)
          target (ceilTenths 3 target) [])), P x :=
    runArchetype_mem
      (fun _ x hx => Or.inr (Or.inr (Or.inl (true_false_card_shape hx)))) _ _ h2
  have h4 : ∀ x ∈ runArchetype
      (fun i => generateMultipleChoiceCard sents terms i shuffle now)
      target (ceilTenths 2 target)
      (runArchetype (fun i => generateTrueFalseCard sents i now)
        target (ceilTenths 2 target)
        (runArchetype (fun i => generateDefinitionCard terms sents i now)
          target (ceilTenths 3 target)
          (runArchetype (fun i => generateFillInBlankCard sents i now)
            target (ceilTenths 3 target) []))), P x :=
    runArchetype_mem
      (fun _ x hx => Or.inr (Or.inr (Or.inr (multiple_choice_card_shape hx)))) _ _ h3
  exact h4 c (List.take_subset _ _ hc)

/-- Witness for `heuristic_difficulty_type`: a concrete run producing a
fill-in-blank card. -/
theorem heuristic_difficulty_type_witness :
    (generateAdvancedFlashcards "Solar panels give solar energy daily." 1 id 0).length = 1 ∧
    ∀ c ∈ generateAdvancedFlashcards "Solar panels give solar energy daily." 1 id 0,
      (c.type = "fill_blank" ∧ c.difficulty = "basic") ∨
      (c.type = "definition" ∧ c.difficulty = "intermediate") ∨
      (c.type = "true_false" ∧ c.difficulty = "basic") ∨
      (c.type = "multiple_choice" ∧ c.difficulty = "advanced") :=
  ⟨by decide, fun c hc =>
    heuristic_difficulty_type "Solar panels give solar energy daily." 1 0 id c hc⟩

end StudyApp

namespace StudyApp

/-- An element fetched with a valid index is in the list. -/
theorem list_getD_mem {α : Type} :
    ∀ (l : List α) (n : Nat) (d : α), n < l.length → l.getD n d ∈ l
  | a :: _, 0, _, _ => by simp [List.getD]
  | a :: l, n + 1, d, h => by
    have ih := list_getD_mem l n d (by simpa using h)
    simpa [List.getD] using Or.inr (by simpa [List.getD] using ih)

/-- When every builder call succeeds, one archetype loop produces exactly
its quota, capped by the global target. -/
theorem runArchetype_length {build : Nat → Option Flashcard} {target : Nat}
    (hb : ∀ i, (build i).isSome) :
    ∀ n cards, cards.length ≤ target →
      (runArchetype build target n cards).length = min target (cards.length + n) := by
  intro n
  induction n with
  | zero => intro cards h; simp [runArchetype, Nat.min_eq_right h]
  | succ k ih =>
    intro cards h
    unfold runArchetype
    split
    · rcases hbuild : build cards.length with _ | c
      · exact absurd (hb cards.length) (by simp [hbuild])
      · show (runArchetype build target k (cards ++ [c])).length = _
        rw [ih (cards ++ [c]) (by simp; omega)]
        simp only [List.length_append, List.length_singleton]
        omega
    · omega

/-- The fill-in-blank builder succeeds at every cursor when the sentence pool
is non-empty and every trimmed sentence has more than 5 space-separated
words. -/
theorem fill_isSome {sentences : List String} (hs : sentences ≠ [])
    (hw : ∀ s ∈ sentences, 5 < (splitStr ' ' (jsTrim s)).length) (i now : Nat) :
    (generateFillInBlankCard sentences i now).isSome := by
  unfold generateFillInBlankCard
  rcases sentences with _ | ⟨a, l⟩
  · exact absurd rfl hs
  · have hmem : (a :: l).getD (i % (a :: l).length) "" ∈ a :: l :=
      list_getD_mem _ _ _ (Nat.mod_lt _ (by simp))
    simp only
    rw [if_pos (hw _ hmem)]
    rfl

/-- The definition builder succeeds at every cursor when the key-term pool is
non-empty and every term occurs (case-insensitively) in some sentence. -/
theorem definition_isSome {keyTerms sentences : List String} (ht : keyTerms ≠ [])
    (hm : ∀ t ∈ keyTerms, ∃ s ∈ sentences,
      jsIncludes (lowerStr s) (lowerStr t) = true) (i now : Nat) :
    (generateDefinitionCard keyTerms sentences i now).isSome := by
  unfold generateDefinitionCard
  rcases keyTerms with _ | ⟨a, l⟩
  · exact absurd rfl ht
  · have hmem : (a :: l).getD (i % (a :: l).length) "" ∈ a :: l :=
      list_getD_mem _ _ _ (Nat.mod_lt _ (by simp))
    rcases hm _ hmem with ⟨s, hsmem, hsinc⟩
    simp only
    rcases hf : (sentences.find? fun s =>
        jsIncludes (lowerStr s) (lowerStr ((a :: l).getD (i % (a :: l).length) ""))) with
      _ | rs
    · rw [List.find?_eq_none] at hf
      exact absurd hsinc (by simpa using hf s hsmem)
    · rfl

/-- The true/false builder succeeds at every cursor when the sentence pool is
non-empty. -/
theorem true_false_isSome {sentences : List String} (hs : sentences ≠ [])
    (i now : Nat) : (generateTrueFalseCard sentences i now).isSome := by
  unfold generateTrueFalseCard
  rcases sentences with _ | ⟨a, l⟩
  · exact absurd rfl hs
  · rfl

/-- The multiple-choice builder succeeds at every cursor when both pools are
non-empty and every term occurs in some sentence. -/
theorem multiple_choice_isSome {keyTerms sentences : List String}
    (ht : keyTerms ≠ []) (hs : sentences ≠ [])
    (hm : ∀ t ∈ keyTerms, ∃ s ∈ sentences,
      jsIncludes (lowerStr s) (lowerStr t) = true)
    (i now : Nat) (shuffle : List String → List String) :
    (generateMultipleChoiceCard sentences keyTerms i shuffle now).isSome := by
  unfold generateMultipleChoiceCard
  rcases keyTerms with _ | ⟨a, l⟩
  · exact absurd rfl ht
  · rcases sentences with _ | ⟨b, m⟩
    · exact absurd rfl hs
    · have hmem : (a :: l).getD (i % (a :: l).length) "" ∈ a :: l :=
        list_getD_mem _ _ _ (Nat.mod_lt _ (by simp))
      rcases hm _ hmem with ⟨s, hsmem, hsinc⟩
      simp only
      rcases hf : ((b :: m).find? fun s =>
          jsIncludes (lowerStr s) (lowerStr ((a :: l).getD (i % (a :: l).length) ""))) with
        _ | rs
      · rw [List.find?_eq_none] at hf
        exact absurd hsinc (by simpa using hf s hsmem)
      · rfl

end StudyApp

namespace StudyApp

/-- When all four builders always succeed, the four archetype phases
followed by the final truncation produce exactly the target: the quota sum
`2⋅⌈0.3T⌉ + 2⋅⌈0.2T⌉` is at least `T`. -/
theorem four_phase_length {b1 b2 b3 b4 : Nat → Option Flashcard} {T : Nat}
    (h1 : ∀ i, (b1 i).isSome) (h2 : ∀ i, (b2 i).isSome)
    (h3 : ∀ i, (b3 i).isSome) (h4 : ∀ i, (b4 i).isSome) :
    (List.take T (runArchetype b4 T (ceilTenths 2 T)
      (runArchetype b3 T (ceilTenths 2 T)
        (runArchetype b2 T (ceilTenths 3 T)
          (runArchetype b1 T (ceilTenths 3 T) []))))).length = T := by
  have l1 := @runArchetype_length b1 T h1 (ceilTenths 3 T) [] (by simp)
  have l2 := @runArchetype_length b2 T h2 (ceilTenths 3 T)
    (runArchetype b1 T (ceilTenths 3 T) []) (by rw [l1]; omega)
  have l3 := @runArchetype_length b3 T h3 (ceilTenths 2 T)
    (runArchetype b2 T (ceilTenths 3 T) (runArchetype b1 T (ceilTenths 3 T) []))
    (by rw [l2]; omega)
  have l4 := @runArchetype_length b4 T h4 (ceilTenths 2 T)
    (runArchetype b3 T (ceilTenths 2 T)
      (runArchetype b2 T (ceilTenths 3 T)
        (runArchetype b1 T (ceilTenths 3 T) [])))
    (by rw [l3]; omega)
  rw [List.length_take, l4, l3, l2, l1]
  simp only [ceilTenths, List.length_nil]
  omega

/-! ## Claim C4 — heuristic coordinator count -/

/-- Claim C4: for every target `T ≥ 0` and notes with non-empty sentence and
key-term pools, the heuristic generation coordinator returns at most `T`
cards, and returns exactly `T` cards whenever each archetype's quota is
individually satisfiable by its builder — here: every trimmed sentence has
more than 5 space-separated words and every key term occurs
case-insensitively in some sentence, so that every builder call succeeds. -/
theorem heuristic_count_spec (notes : String) (T now : Nat)
    (shuffle : List String → List String) :
    (generateAdvancedFlashcards notes T shuffle now).length ≤ T ∧
    ((sentencesOf notes ≠ [] ∧ extractKeyTerms notes ≠ [] ∧
      (∀ s ∈ sentencesOf notes, 5 < (splitStr ' ' (jsTrim s)).length) ∧
      (∀ t ∈ extractKeyTerms notes, ∃ s ∈ sentencesOf notes,
        jsIncludes (lowerStr s) (lowerStr t) = true)) →
      (generateAdvancedFlashcards notes T shuffle now).length = T) := by
  refine ⟨List.length_take_le _ _, ?_⟩
  rintro ⟨hs, ht, hw, hm⟩
  exact four_phase_length
    (fun i => fill_isSome hs hw i now)
    (fun i => definition_isSome ht hm i now)
    (fun i => true_false_isSome hs i now)
    (fun i => multiple_choice_isSome ht hs hm i now shuffle)

/-- Witness for `heuristic_count_spec`: at a concrete notes string whose
builders all succeed, the coordinator returns exactly the target. -/
theorem heuristic_count_spec_witness :
    (sentencesOf "Solar panels give solar energy daily." ≠ [] ∧
     extractKeyTerms "Solar panels give solar energy daily." ≠ [] ∧
     (∀ s ∈ sentencesOf "Solar panels give solar energy daily.",
       5 < (splitStr ' ' (jsTrim s)).length) ∧
     (∀ t ∈ extractKeyTerms "Solar panels give solar energy daily.",
       ∃ s ∈ sentencesOf "Solar panels give solar energy daily.",
         jsIncludes (lowerStr s) (lowerStr t) = true)) ∧
    (generateAdvancedFlashcards "Solar panels give solar energy daily." 1 id 0).length
      = 1 := by
  refine ⟨⟨by decide, by decide, by decide, by decide⟩, ?_⟩
  exact (heuristic_count_spec "Solar panels give solar energy daily." 1 0 id).2
    ⟨by decide, by decide, by decide, by decide⟩

end StudyApp

namespace StudyApp

/-! ## Supporting lemmas for the multiple-choice builder -/

/-- `jsIndexOfAux` finds the first index of a present element. -/
theorem jsIndexOfAux_mem :
    ∀ (l : List String) (x : String) (i : Int), x ∈ l →
      ∃ k : Nat, jsIndexOfAux l x i = i + (k : Int) ∧ k < l.length ∧
        l.get? k = some x := by
  intro l
  induction l with
  | nil => intro x i hx; simp at hx
  | cons y ys ih =>
    intro x i hx
    by_cases hyx : y = x
    · exact ⟨0, by simp [jsIndexOfAux, hyx], by simp, by simp [hyx]⟩
    · have hx' : x ∈ ys := by
        rcases List.mem_cons.mp hx with h | h
        · exact absurd h.symm hyx
        · exact h
      rcases ih x (i + 1) hx' with ⟨k, hk, hlen, hget⟩
      refine ⟨k + 1, ?_, by simpa using Nat.succ_lt_succ hlen, by simpa using hget⟩
      simp only [jsIndexOfAux, if_neg hyx]
      rw [hk]
      push_cast
      ring

/-- `l.indexOf(x)` for a present `x`: a genuine index pointing at `x`. -/
theorem jsIndexOf_mem {l : List String} {x : String} (hx : x ∈ l) :
    ∃ k : Nat, jsIndexOf l x = (k : Int) ∧ k < l.length ∧ l.get? k = some x := by
  rcases jsIndexOfAux_mem l x 0 hx with ⟨k, hk, hlen, hget⟩
  exact ⟨k, by simpa using hk, hlen, hget⟩

/-- The displayed option at a valid index equal to a non-empty stored choice
is that choice (index 3 additionally survives the `|| 'None of the above'`
fallback because the choice is non-empty). -/
theorem mcOptions_getD_of_get? {choices : List String} {k : Nat} {x : String}
    (hx : x ≠ "") (hget : choices.get? k = some x) (hk : k < 4) :
    (mcOptions choices).getD k "" = x := by
  rw [List.get?_eq_getElem?] at hget
  interval_cases k <;> simp [mcOptions, hget, hx]

/-- Decoding the letter of a well-formed answer string recovers the index. -/
theorem parse_letter (k : Nat) (t : String) (hk : k < 4) :
    parseAnswerIdx (String.mk [Char.ofNat (65 + k)] ++ ") " ++ t) = some k := by
  cases t with
  | mk d => interval_cases k <;> rfl

/-! ## Claim C8 — multiple-choice answer letter round-trip -/

/-- Claim C8: for every multiple-choice card produced, over every
permutation outcome of the random shuffle, the letter encoded in the answer
corresponds to the position of the correct term in the option list shown in
the question: parsing the letter back out of the answer and indexing into
the displayed options yields the correct term.  (The selected term is
non-empty for every key-term list the extractor can produce; the hypothesis
records that.) -/
theorem mc_roundtrip (sentences keyTerms : List String) (index now : Nat)
    (shuffle : List String → List String)
    (hsh : ∀ l, (shuffle l).Perm l)
    (hterm : keyTerms.getD (index % keyTerms.length) "" ≠ "")
    (c : Flashcard)
    (hc : generateMultipleChoiceCard sentences keyTerms index shuffle now = some c) :
    ∃ rs opts j,
      c.question = mcQuestion rs opts ∧
      parseAnswerIdx c.answer = some j ∧ j < 4 ∧
      opts.getD j "" = keyTerms.getD (index % keyTerms.length) "" ∧
      c.answer = String.mk [Char.ofNat (65 + j)] ++ ") " ++
        keyTerms.getD (index % keyTerms.length) "" := by
  unfold generateMultipleChoiceCard at hc
  rcases keyTerms with _ | ⟨a, l⟩
  · exact absurd hc (by simp)
  rcases sentences with _ | ⟨b, m⟩
  · exact absurd hc (by simp)
  simp only at hc
  rcases hf : ((b :: m).find? fun s =>
      jsIncludes (lowerStr s) (lowerStr ((a :: l).getD (index % (a :: l).length) ""))) with
    _ | rs
  · rw [hf] at hc; exact absurd hc (by simp)
  rw [hf] at hc
  injection hc with hc
  subst hc
  set term := (a :: l).getD (index % (a :: l).length) "" with hterm_def
  set others := ((a :: l).filter fun t => t ≠ term).take 3 with hothers_def
  set choices := shuffle (term :: others) with hchoices_def
  have hmem : term ∈ choices := ((hsh (term :: others)).mem_iff).mpr (by simp)
  obtain ⟨k, hk, hklen, hkget⟩ := jsIndexOf_mem hmem
  have hlen : choices.length ≤ 4 := by
    rw [(hsh (term :: others)).length_eq]
    simp only [List.length_cons, hothers_def]
    have := List.length_take_le 3 ((a :: l).filter fun t => t ≠ term)
    omega
  have hk4 : k < 4 := lt_of_lt_of_le hklen hlen
  have hnum : ((65 : Int) + jsIndexOf choices term).toNat = 65 + k := by
    rw [hk]; omega
  refine ⟨rs, mcOptions choices, k, rfl, ?_, hk4,
    mcOptions_getD_of_get? hterm hkget hk4, ?_⟩
  · show parseAnswerIdx
      (String.mk [Char.ofNat (65 + jsIndexOf choices term).toNat] ++ ") " ++ term)
        = some k
    rw [hnum]
    exact parse_letter k term hk4
  · show String.mk [Char.ofNat (65 + jsIndexOf choices term).toNat] ++ ") " ++ term
      = String.mk [Char.ofNat (65 + k)] ++ ") " ++ term
    rw [hnum]

end StudyApp

namespace StudyApp

/-- Witness for `mc_roundtrip` at a concrete builder invocation (identity
shuffle, two key terms): the answer letter `A` indexes option slot 0, which
shows the selected term. -/
theorem mc_roundtrip_witness :
    generateMultipleChoiceCard ["the Alpha concept"] ["Alpha", "Beta"] 0 id 0 =
      some { id := "card_0_0_mc",
             question := "Which term is described by: \"the Alpha concept\"?\nA) Alpha\nB) Beta\nC) undefined\nD) None of the above",
             answer := "A) Alpha",
             difficulty := "advanced",
             type := "multiple_choice" } ∧
    ∃ rs opts j,
      ("Which term is described by: \"the Alpha concept\"?\nA) Alpha\nB) Beta\nC) undefined\nD) None of the above" : String)
          = mcQuestion rs opts ∧
      parseAnswerIdx "A) Alpha" = some j ∧ j < 4 ∧
      opts.getD j "" = (["Alpha", "Beta"] : List String).getD
        (0 % (["Alpha", "Beta"] : List String).length) "" ∧
      ("A) Alpha" : String) = String.mk [Char.ofNat (65 + j)] ++ ") " ++
        (["Alpha", "Beta"] : List String).getD
          (0 % (["Alpha", "Beta"] : List String).length) "" := by
  constructor
  · decide
  · exact mc_roundtrip ["the Alpha concept"] ["Alpha", "Beta"] 0 0 id
      (fun l => List.Perm.refl l) (by decide)
      { id := "card_0_0_mc",
        question := "Which term is described by: \"the Alpha concept\"?\nA) Alpha\nB) Beta\nC) undefined\nD) None of the above",
        answer := "A) Alpha",
        difficulty := "advanced",
        type := "multiple_choice" } (by decide)

/-- A missing fourth option slot falls back to "None of the above". -/
theorem mcOptions_getD_three_none {choices : List String}
    (h : choices.length ≤ 3) :
    (mcOptions choices).getD 3 "" = "None of the above" := by
  have hnone : choices[3]? = none := by
    rw [List.getElem?_eq_none_iff]; omega
  simp [mcOptions, hnone]

/-- A missing option slot other than the fourth renders as "undefined". -/
theorem mcOptions_getD_undefined {choices : List String} {j : Nat}
    (h : choices.length ≤ j) (hj : j < 3) :
    (mcOptions choices).getD j "" = "undefined" := by
  have hnone : choices[j]? = none := by
    rw [List.getElem?_eq_none_iff]; omega
  interval_cases j <;> simp [mcOptions, hnone]

/-! ## Claim C9 — missing option slots -/

/-- Claim C9, counterexample: with a single other key term the produced card
displays `C) undefined`, so not every remaining slot reads "None of the
above" — only the D slot has that fallback. -/
theorem mc_undefined_slot_cex :
    generateMultipleChoiceCard ["the Alpha concept"] ["Alpha", "Beta"] 0 id 0 =
      some { id := "card_0_0_mc",
             question := "Which term is described by: \"the Alpha concept\"?\nA) Alpha\nB) Beta\nC) undefined\nD) None of the above",
             answer := "A) Alpha",
             difficulty := "advanced",
             type := "multiple_choice" } ∧
    (mcOptions ["Alpha", "Beta"]).getD 2 "" = "undefined" ∧
    (mcOptions ["Alpha", "Beta"]).getD 2 "" ≠ "None of the above" := by
  refine ⟨by decide, by decide, by decide⟩

/-- Claim C9, amended: when the multiple-choice builder produces a card and
fewer than 3 other distinct key terms exist, the D slot of the displayed
option list reads "None of the above", while any other missing slot (B or C)
reads "undefined". -/
theorem mc_option_fill_spec (sentences keyTerms : List String) (index now : Nat)
    (shuffle : List String → List String) (hsh : ∀ l, (shuffle l).Perm l)
    (c : Flashcard)
    (hc : generateMultipleChoiceCard sentences keyTerms index shuffle now = some c)
    (hfew : (keyTerms.filter fun t =>
        t ≠ keyTerms.getD (index % keyTerms.length) "").length < 3) :
    ∃ rs choices, c.question = mcQuestion rs (mcOptions choices) ∧
      choices.length < 4 ∧
      (mcOptions choices).getD 3 "" = "None of the above" ∧
      ∀ j, choices.length ≤ j → j < 3 →
        (mcOptions choices).getD j "" = "undefined" := by
  unfold generateMultipleChoiceCard at hc
  rcases keyTerms with _ | ⟨a, l⟩
  · exact absurd hc (by simp)
  rcases sentences with _ | ⟨b, m⟩
  · exact absurd hc (by simp)
  simp only at hc
  rcases hf : ((b :: m).find? fun s =>
      jsIncludes (lowerStr s) (lowerStr ((a :: l).getD (index % (a :: l).length) ""))) with
    _ | rs
  · rw [hf] at hc; exact absurd hc (by simp)
  rw [hf] at hc
  injection hc with hc
  subst hc
  set term := (a :: l).getD (index % (a :: l).length) "" with hterm_def
  set others := ((a :: l).filter fun t => t ≠ term).take 3 with hothers_def
  set choices := shuffle (term :: others) with hchoices_def
  have hlen : choices.length < 4 := by
    rw [(hsh (term :: others)).length_eq]
    simp only [List.length_cons, hothers_def, List.length_take]
    omega
  refine ⟨rs, choices, rfl, hlen, mcOptions_getD_three_none (by omega), ?_⟩
  intro j hj hj3
  exact mcOptions_getD_undefined hj hj3

/-- Witness for `mc_option_fill_spec` at a concrete builder invocation. -/
theorem mc_option_fill_spec_witness :
    ((["Alpha", "Beta"] : List String).filter (fun t =>
      t ≠ (["Alpha", "Beta"] : List String).getD
        (0 % (["Alpha", "Beta"] : List String).length) "")).length < 3 ∧
    ∃ rs choices,
      ("Which term is described by: \"the Alpha concept\"?\nA) Alpha\nB) Beta\nC) undefined\nD) None of the above" : String)
          = mcQuestion rs (mcOptions choices) ∧
      choices.length < 4 ∧
      (mcOptions choices).getD 3 "" = "None of the above" ∧
      ∀ j, choices.length ≤ j → j < 3 →
        (mcOptions choices).getD j "" = "undefined" := by
  constructor
  · decide
  · exact mc_option_fill_spec ["the Alpha concept"] ["Alpha", "Beta"] 0 0 id
      (fun l => List.Perm.refl l)
      { id := "card_0_0_mc",
        question := "Which term is described by: \"the Alpha concept\"?\nA) Alpha\nB) Beta\nC) undefined\nD) None of the above",
        answer := "A) Alpha",
        difficulty := "advanced",
        type := "multiple_choice" } (by decide) (by decide)

end StudyApp

namespace StudyApp

/-! ## Supporting lemmas about the tier loop -/

/-- Trace specification of the tier loop: it only appends progress records,
whose `current` values continue the running card count non-decreasingly, all
tagged `generating` with the run's total; the last running value is the
length of the returned accumulation. -/
theorem runTiers_spec (notes : String) (target : Nat) (ai : String → Option String)
    (now : Nat) :
    ∀ (tiers : List (Nat × String)) (cards : List Flashcard)
      (trace : List GenProgress),
      ∃ ext : List GenProgress,
        (runTiers notes target ai now tiers cards trace).2 = trace ++ ext ∧
        List.Chain' (· ≤ ·) (cards.length :: ext.map (fun p => p.current)) ∧
        (cards.length :: ext.map (fun p => p.current)).getLast (by simp) =
          (runTiers notes target ai now tiers cards trace).1.length ∧
        ∀ p ∈ ext, p.total = target ∧ p.status = "generating" := by
  intro tiers
  induction tiers with
  | nil =>
    intro cards trace
    exact ⟨[], by simp [runTiers], by simp, by simp [runTiers], by simp⟩
  | cons t rest ih =>
    intro cards trace
    rcases t with ⟨count, difficulty⟩
    rcases hai : ai (createPromptForDifficulty notes count difficulty) with _ | txt
    · obtain ⟨ext, h1, h2, h3, h4⟩ := ih cards trace
      refine ⟨ext, ?_, h2, ?_, h4⟩
      · rw [runTiers, hai]; exact h1
      · rw [runTiers, hai]; exact h3
    · obtain ⟨ext, h1, h2, h3, h4⟩ :=
        ih (cards ++ parseFlashcards txt notes difficulty now)
          (trace ++ [{ current := (cards ++ parseFlashcards txt notes difficulty now).length,
                       total := target, status := "generating" }])
      refine ⟨{ current := (cards ++ parseFlashcards txt notes difficulty now).length,
                total := target, status := "generating" } :: ext, ?_, ?_, ?_, ?_⟩
      · rw [runTiers, hai, h1]
        simp
      · rw [List.map_cons, List.chain'_cons]
        exact ⟨by simp, h2⟩
      · rw [runTiers, hai]
        rw [← h3]
        rw [List.map_cons]
        rw [List.getLast_cons (by simp)]
      · intro p hp
        rcases List.mem_cons.mp hp with rfl | hp
        · exact ⟨rfl, rfl⟩
        · exact h4 p hp

/-- The accumulation of the tier loop decomposes tier by tier: every
successful tier contributes exactly its parsed cards, and a failed tier
contributes nothing without affecting the others. -/
theorem runTiers_cards_decomp (notes : String) (target : Nat)
    (ai : String → Option String) (now : Nat) :
    ∀ (tiers : List (Nat × String)) (cards : List Flashcard)
      (trace : List GenProgress),
      (runTiers notes target ai now tiers cards trace).1 =
        cards ++ (tiers.map (fun td =>
          match ai (createPromptForDifficulty notes td.1 td.2) with
          | none => []
          | some txt => parseFlashcards txt notes td.2 now)).flatten := by
  intro tiers
  induction tiers with
  | nil => intro cards trace; simp [runTiers]
  | cons t rest ih =>
    intro cards trace
    rcases t with ⟨count, difficulty⟩
    rcases hai : ai (createPromptForDifficulty notes count difficulty) with _ | txt
    · rw [runTiers, hai, ih]
      simp [hai]
    · rw [runTiers, hai, ih]
      simp [hai]

end StudyApp

namespace StudyApp

/-! ## Claim C2 — progress trace of the AI tier coordinator -/

set_option maxRecDepth 8000 in
/-- Claim C2, counterexample: when one tier's response parses to more cards
than the target, the final progress record carries the pre-truncation count
(2) while the coordinator returns the truncated list (length 1), so the last
record's `current` is not the length of the returned card list. -/
theorem progress_final_mismatch_cex :
    (generateFlashcardsWithProgress "x" 1
      (fun p => if p = createPromptForDifficulty "x" 1 "basic"
        then some "Q: a A: b Q: c A: d" else none) id 0).1.length = 1 ∧
    (generateFlashcardsWithProgress "x" 1
      (fun p => if p = createPromptForDifficulty "x" 1 "basic"
        then some "Q: a A: b Q: c A: d" else none) id 0).2.getLast? =
      some { current := 2, total := 1, status := "completed" } := by
  refine ⟨by decide, by decide⟩

/-- Claim C2, amended: for every run of the AI tier coordinator and every
combination of per-tier success/failure, the written progress sequence is
non-decreasing in `current` and its last record has `status = completed`
with `current` equal to the number of cards accumulated before the final
truncation; the returned list has length `min target current`, which equals
`current` exactly when accumulation did not exceed the target (in
particular whenever the heuristic backfill ran). -/
theorem progress_trace_spec (notes : String) (target now : Nat)
    (ai : String → Option String) (shuffle : List String → List String) :
    List.Chain' (fun p q => p.current ≤ q.current)
      (generateFlashcardsWithProgress notes target ai shuffle now).2 ∧
    ∃ p, (generateFlashcardsWithProgress notes target ai shuffle now).2.getLast?
        = some p ∧
      p.status = "completed" ∧ p.total = target ∧
      (generateFlashcardsWithProgress notes target ai shuffle now).1.length =
        min target p.current := by
  obtain ⟨ext, h1, h2, h3, h4⟩ := runTiers_spec notes target ai now
    (questionTypes target) []
    [{ current := 0, total := target, status := "generating" }]
  have hgen1 : (generateFlashcardsWithProgress notes target ai shuffle now).1 =
      (if (runTiers notes target ai now (questionTypes target) []
            [{ current := 0, total := target, status := "generating" }]).1.length
          < target
        then (runTiers notes target ai now (questionTypes target) []
            [{ current := 0, total := target, status := "generating" }]).1 ++
          generateAdvancedFlashcards notes
            (target - (runTiers notes target ai now (questionTypes target) []
              [{ current := 0, total := target, status := "generating" }]).1.length)
            shuffle now
        else (runTiers notes target ai now (questionTypes target) []
            [{ current := 0, total := target, status := "generating" }]).1).take
        target := rfl
  have hgen2 : (generateFlashcardsWithProgress notes target ai shuffle now).2 =
      (runTiers notes target ai now (questionTypes target) []
        [{ current := 0, total := target, status := "generating" }]).2 ++
      [{ current :=
            (if (runTiers notes target ai now (questionTypes target) []
                  [{ current := 0, total := target, status := "generating" }]).1.length
                < target
              then (runTiers notes target ai now (questionTypes target) []
                  [{ current := 0, total := target, status := "generating" }]).1 ++
                generateAdvancedFlashcards notes
                  (target - (runTiers notes target ai now (questionTypes target) []
                    [{ current := 0, total := target, status := "generating" }]).1.length)
                  shuffle now
              else (runTiers notes target ai now (questionTypes target) []
                  [{ current := 0, total := target, status := "generating" }]).1).length,
          total := target, status := "completed" }] := rfl
  rw [hgen1, hgen2]
  set R := runTiers notes target ai now (questionTypes target) []
    [{ current := 0, total := target, status := "generating" }] with hR
  set B := if R.1.length < target
    then R.1 ++ generateAdvancedFlashcards notes (target - R.1.length) shuffle now
    else R.1 with hB
  have hlenB : R.1.length ≤ B.length := by
    rw [hB]
    split
    · simp
    · exact le_rfl
  constructor
  · rw [h1]
    have hch : List.Chain' (· ≤ ·)
        (List.map (fun p : GenProgress => p.current)
          (({ current := 0, total := target, status := "generating" } :: ext) ++
            [{ current := B.length, total := target, status := "completed" }])) := by
      rw [List.map_append, List.map_cons]
      rw [List.chain'_append]
      refine ⟨h2, by simp, ?_⟩
      intro x hx y hy
      rw [List.getLast?_eq_getLast _ (by simp), Option.mem_some_iff] at hx
      simp only [List.map_cons, List.map_nil, List.head?_cons,
        Option.mem_some_iff] at hy
      subst hx
      subst hy
      exact h3.trans_le hlenB
    have hrec := (List.chain'_map (fun p : GenProgress => p.current)).mp hch
    simpa using hrec
  · refine ⟨{ current := B.length, total := target, status := "completed" },
      ?_, rfl, rfl, ?_⟩
    · rw [h1]
      exact List.getLast?_concat _
    · rw [List.length_take]

end StudyApp

namespace StudyApp

/-! ## Claim C1 — tier failures are absorbed, never surfaced -/

/-- Claim C1: with an API credential configured, (1) the tier loop's
accumulated cards decompose tier by tier — a transport or parse failure in
one tier contributes an empty list without affecting what the other tiers
contribute — and (2) for every per-tier outcome and even when the AI path
fails as a whole, the handler still answers with a normal successful result,
(3) in the fatal case by transparently running exactly the heuristic path it
would run with no credential at all. -/
theorem ai_failures_not_surfaced (ns : String) (hns : ns ≠ "")
    (userId apiKey : String) (ai : String → Option String) (aiFatal : Bool)
    (shuffle : List String → List String) (now : Nat) :
    (∀ target : Nat,
      (runTiers ns target ai now (questionTypes target) []
        [{ current := 0, total := target, status := "generating" }]).1 =
      ((questionTypes target).map (fun td =>
        match ai (createPromptForDifficulty ns td.1 td.2) with
        | none => []
        | some txt => parseFlashcards txt ns td.2 now)).flatten) ∧
    (∃ cards n,
      (generateFlashcardsEndpoint (some ns) userId (some apiKey) ai aiFatal
        shuffle now).1 = EndpointResult.ok cards n) ∧
    (generateFlashcardsEndpoint (some ns) userId (some apiKey) ai true
        shuffle now =
      generateFlashcardsEndpoint (some ns) userId none ai aiFatal shuffle now) := by
  refine ⟨?_, ?_, ?_⟩
  · intro target
    simpa using runTiers_cards_decomp ns target ai now (questionTypes target) []
      [{ current := 0, total := target, status := "generating" }]
  · simp only [generateFlashcardsEndpoint, if_neg hns]
    cases aiFatal
    · exact ⟨_, _, rfl⟩
    · exact ⟨_, _, rfl⟩
  · simp only [generateFlashcardsEndpoint, if_neg hns]
    simp

/-- Witness for `ai_failures_not_surfaced`: a valid notes string, an API key
configured, and a service failing on every tier still yield a success
response. -/
theorem ai_failures_not_surfaced_witness :
    ("x" : String) ≠ "" ∧
    (∃ cards n,
      (generateFlashcardsEndpoint (some "x") "u" (some "k") (fun _ => none)
        false id 0).1 = EndpointResult.ok cards n) :=
  ⟨by decide,
   (ai_failures_not_surfaced "x" (by decide) "u" "k" (fun _ => none) false id 0).2.1⟩

end StudyApp

namespace StudyApp

/-! ## Supporting lemmas about substring search and replacement -/

/-- `leadsWith` is the leading-segment relation. -/
theorem leadsWith_iff : ∀ w s : List Char, leadsWith w s = true ↔ ∃ t, s = w ++ t := by
  intro w
  induction w with
  | nil => intro s; simp [leadsWith]
  | cons a as ih =>
    intro s
    cases s with
    | nil => simp [leadsWith]
    | cons b bs =>
      rw [leadsWith]
      simp only [Bool.and_eq_true, decide_eq_true_eq]
      constructor
      · rintro ⟨rfl, h⟩
        obtain ⟨t, rfl⟩ := (ih bs).mp h
        exact ⟨t, rfl⟩
      · rintro ⟨t, ht⟩
        injection ht with h1 h2
        subst h1
        exact ⟨rfl, (ih bs).mpr ⟨t, h2⟩⟩

/-- A leading segment is no longer than its host. -/
theorem leadsWith_length {w s : List Char} (h : leadsWith w s = true) :
    w.length ≤ s.length := by
  obtain ⟨t, rfl⟩ := (leadsWith_iff w s).mp h
  simp

/-- A hit of the scan is a genuine occurrence at or after the start index. -/
theorem findSubstrAux_some {w : List Char} :
    ∀ (s : List Char) (i j : Nat), findSubstrAux w s i = some j →
      ∃ k, j = i + k ∧ leadsWith w (s.drop k) = true := by
  intro s
  induction s with
  | nil =>
    intro i j h
    rw [findSubstrAux] at h
    split at h
    case isTrue hlead => injection h with h; exact ⟨0, by omega, by simpa using hlead⟩
    case isFalse => exact absurd h (by simp)
  | cons c cs ih =>
    intro i j h
    rw [findSubstrAux] at h
    split at h
    case isTrue hlead => injection h with h; exact ⟨0, by omega, by simpa using hlead⟩
    case isFalse hnl =>
      obtain ⟨k, hk, hl⟩ := ih (i + 1) j h
      exact ⟨k + 1, by omega, by simpa using hl⟩

/-- The scan succeeds when some occurrence exists. -/
theorem findSubstrAux_isSome {w : List Char} :
    ∀ (s : List Char) (k i : Nat), leadsWith w (s.drop k) = true →
      (findSubstrAux w s i).isSome := by
  intro s
  induction s with
  | nil =>
    intro k i h
    rw [List.drop_nil] at h
    rw [findSubstrAux, if_pos h]
    rfl
  | cons c cs ih =>
    intro k i h
    rw [findSubstrAux]
    split
    · rfl
    case isFalse hnl =>
      cases k with
      | zero => exact absurd (by simpa using h) hnl
      | succ k' => exact ih k' (i + 1) (by simpa using h)

/-- An occurrence at index `j` splits the host around `w`. -/
theorem decomp_of_leadsWith_drop {w s : List Char} {j : Nat}
    (h : leadsWith w (s.drop j) = true) :
    s = s.take j ++ w ++ s.drop (j + w.length) := by
  obtain ⟨t, ht⟩ := (leadsWith_iff _ _).mp h
  have h2 : s.drop (j + w.length) = t := by
    rw [← List.drop_drop, ht, List.drop_left]
  rw [h2, List.append_assoc, ← ht]
  exact (List.take_append_drop j s).symm

/-- Membership in the occurrence list. -/
theorem mem_occList {w u : List Char} {i : Nat} :
    i ∈ occList w u ↔ i < u.length + 1 ∧ leadsWith w (u.drop i) = true := by
  simp [occList, List.mem_filter, List.mem_range]

/-- A split of the host around `w` puts the split point in the occurrence
list. -/
theorem occAt_mem {w u a b : List Char} (h : u = a ++ w ++ b) :
    a.length ∈ occList w u := by
  rw [mem_occList]
  subst h
  constructor
  · simp; omega
  · have hd : (a ++ w ++ b).drop a.length = w ++ b := by
      rw [List.append_assoc, List.drop_left]
    rw [hd]
    exact (leadsWith_iff _ _).mpr ⟨b, rfl⟩

/-- A one-element occurrence list pins every occurrence to the same index. -/
theorem occList_unique {w u : List Char} (h : (occList w u).length = 1)
    {i j : Nat} (hi : i ∈ occList w u) (hj : j ∈ occList w u) : i = j := by
  obtain ⟨x, hx⟩ := List.length_eq_one.mp h
  rw [hx] at hi hj
  simp at hi hj
  omega

/-- The empty pattern occurs everywhere. -/
theorem occList_nil_length (u : List Char) :
    (occList [] u).length = u.length + 1 := by
  have hall : ∀ x : List Char, leadsWith [] x = true := fun _ => rfl
  simp [occList, hall]

end StudyApp

namespace StudyApp

/-- Central replacement lemma: if `w` (non-empty, sharing no character with
the non-empty marker `m`) occurs exactly once in `a ++ w ++ b`, then it does
not occur at all in `a ++ m ++ b`: an occurrence inside `a` or inside `b`
would be a second occurrence of `w`, and an occurrence overlapping `m` would
force a character of `w` into `m`. -/
theorem findSubstr_replaced_none {w m a b : List Char} (hw : w ≠ []) (hm : m ≠ [])
    (hdisj : ∀ c ∈ w, c ∉ m)
    (honce : (occList w (a ++ w ++ b)).length = 1) :
    findSubstr w (a ++ m ++ b) = none := by
  have hwpos : 0 < w.length := List.length_pos.mpr hw
  have hmpos : 0 < m.length := List.length_pos.mpr hm
  rcases hfind : findSubstr w (a ++ m ++ b) with _ | j
  · rfl
  exfalso
  obtain ⟨k, hk, hlead⟩ := findSubstrAux_some (a ++ m ++ b) 0 j hfind
  have hklen : k + w.length ≤ (a ++ m ++ b).length := by
    have h1 := leadsWith_length hlead
    have h2 : ((a ++ m ++ b).drop k).length = (a ++ m ++ b).length - k :=
      List.length_drop k _
    omega
  have hdec := decomp_of_leadsWith_drop hlead
  have hxlen : ((a ++ m ++ b).take k).length = k := by
    rw [List.length_take]
    omega
  by_cases h1 : k + w.length ≤ a.length
  · -- the occurrence sits entirely inside `a`: a second occurrence of `w`
    have e1 : (a ++ m ++ b).take (k + w.length) = a.take (k + w.length) := by
      rw [List.append_assoc]
      exact List.take_append_of_le_length h1
    have e2 : (a ++ m ++ b).take (k + w.length) =
        (a ++ m ++ b).take k ++ w := by
      conv_lhs => rw [hdec]
      rw [show k + w.length = ((a ++ m ++ b).take k ++ w).length from by
        rw [List.length_append, hxlen]]
      exact List.take_left _ _
    have ha : a = (a ++ m ++ b).take k ++ w ++ a.drop (k + w.length) := by
      conv_lhs => rw [← List.take_append_drop (k + w.length) a, ← e1, e2]
    obtain ⟨P, Q, hPQ, hPlen⟩ : ∃ P Q, a = P ++ w ++ Q ∧ P.length = k :=
      ⟨(a ++ m ++ b).take k, a.drop (k + w.length), ha, hxlen⟩
    have hu : a ++ w ++ b = P ++ w ++ (Q ++ w ++ b) :=
      calc a ++ w ++ b = (P ++ w ++ Q) ++ w ++ b := by rw [← hPQ]
        _ = P ++ w ++ (Q ++ w ++ b) := by simp [List.append_assoc]
    have o1 : P.length ∈ occList w (a ++ w ++ b) := occAt_mem hu
    have o2 : a.length ∈ occList w (a ++ w ++ b) := occAt_mem rfl
    have := occList_unique honce o1 o2
    omega
  · by_cases h2 : a.length + m.length ≤ k
    · -- the occurrence sits entirely inside `b`: a second occurrence of `w`
      have e1 : (a ++ m ++ b).drop (a.length + m.length) = b :=
        List.drop_left' (by simp)
      have e2 : (a ++ m ++ b).drop (a.length + m.length) =
          ((a ++ m ++ b).take k).drop (a.length + m.length) ++ w ++
            (a ++ m ++ b).drop (k + w.length) := by
        conv_lhs => rw [hdec]
        rw [List.append_assoc]
        rw [List.drop_append_of_le_length (by rw [hxlen]; exact h2)]
        rw [← List.append_assoc]
      have hb : b = ((a ++ m ++ b).take k).drop (a.length + m.length) ++ w ++
          (a ++ m ++ b).drop (k + w.length) := by
        conv_lhs => rw [← e1]
        exact e2
      obtain ⟨X, Y, hXY⟩ : ∃ X Y, b = X ++ w ++ Y :=
        ⟨((a ++ m ++ b).take k).drop (a.length + m.length),
         (a ++ m ++ b).drop (k + w.length), hb⟩
      have hu : a ++ w ++ b = (a ++ w ++ X) ++ w ++ Y :=
        calc a ++ w ++ b = a ++ w ++ (X ++ w ++ Y) := by rw [← hXY]
          _ = (a ++ w ++ X) ++ w ++ Y := by simp [List.append_assoc]
      have o1 : (a ++ w ++ X).length ∈ occList w (a ++ w ++ b) := occAt_mem hu
      have o2 : a.length ∈ occList w (a ++ w ++ b) := occAt_mem rfl
      have := occList_unique honce o1 o2
      simp only [List.length_append] at this
      omega
    · -- the occurrence overlaps the marker: a character of `w` lies in `m`
      have hp1 : a.length ≤ max k a.length := Nat.le_max_right _ _
      have hp2 : k ≤ max k a.length := Nat.le_max_left _ _
      have hp3 : max k a.length < a.length + m.length := by omega
      have hp4 : max k a.length < k + w.length := by omega
      have hmlt : max k a.length - a.length < m.length := by omega
      have hwlt : max k a.length - k < w.length := by omega
      have g1 : (a ++ m ++ b).get? (max k a.length) =
          m.get? (max k a.length - a.length) := by
        rw [List.append_assoc]
        rw [List.get?_append_right hp1]
        exact List.get?_append hmlt
      have g2 : (a ++ m ++ b).get? (max k a.length) =
          w.get? (max k a.length - k) := by
        conv_lhs => rw [hdec]
        rw [List.append_assoc]
        rw [List.get?_append_right (by rw [hxlen]; exact hp2)]
        rw [List.get?_append (by rw [hxlen]; omega)]
        rw [hxlen]
      have hmc := List.get?_eq_get hmlt
      have hwc := List.get?_eq_get hwlt
      have heq : m.get ⟨max k a.length - a.length, hmlt⟩ =
          w.get ⟨max k a.length - k, hwlt⟩ := by
        have hoo := g1.symm.trans g2
        rw [hmc, hwc] at hoo
        exact Option.some.inj hoo
      exact hdisj _ (List.get_mem w _ hwlt) (heq ▸ List.get_mem m _ hmlt)

end StudyApp

namespace StudyApp

/-- String concatenation concatenates the character lists. -/
theorem strDataAppend (s t : String) : (s ++ t).data = s.data ++ t.data := by
  cases s
  cases t
  rfl

/-- Every piece of a single-character split is a contiguous segment of the
input (with the pending accumulator prepended). -/
theorem splitCharAux_piece (sep : Char) :
    ∀ (l acc piece : List Char), piece ∈ splitCharAux sep l acc →
      ∃ u v, acc.reverse ++ l = u ++ piece ++ v := by
  intro l
  induction l with
  | nil =>
    intro acc piece h
    simp [splitCharAux] at h
    subst h
    exact ⟨[], [], by simp⟩
  | cons c cs ih =>
    intro acc piece h
    rw [splitCharAux] at h
    split at h
    case isTrue hsep =>
      rcases List.mem_cons.mp h with rfl | h'
      · exact ⟨[], c :: cs, by simp⟩
      · obtain ⟨u, v, huv⟩ := ih [] piece h'
        simp only [List.reverse_nil, List.nil_append] at huv
        refine ⟨acc.reverse ++ [c] ++ u, v, ?_⟩
        rw [huv]
        simp [List.append_assoc]
    case isFalse =>
      obtain ⟨u, v, huv⟩ := ih (c :: acc) piece h
      refine ⟨u, v, ?_⟩
      rw [← huv]
      simp

/-- Every piece of `splitStr` is a contiguous segment of the string. -/
theorem splitStr_piece {sep : Char} {s piece : String}
    (h : piece ∈ splitStr sep s) : ∃ u v, s.data = u ++ piece.data ++ v := by
  obtain ⟨pl, hpl, hmk⟩ := List.mem_map.mp h
  obtain ⟨u, v, huv⟩ := splitCharAux_piece sep s.data [] pl hpl
  refine ⟨u, v, ?_⟩
  rw [← hmk]
  simpa using huv

/-- `dropWhile` removes a front segment. -/
theorem dropWhile_decomp (p : Char → Bool) :
    ∀ l : List Char, ∃ u, l = u ++ l.dropWhile p := by
  intro l
  induction l with
  | nil => exact ⟨[], rfl⟩
  | cons c cs ih =>
    by_cases h : p c
    · obtain ⟨u, hu⟩ := ih
      refine ⟨c :: u, ?_⟩
      rw [List.dropWhile_cons_of_pos h]
      exact congrArg (c :: ·) hu
    · refine ⟨[], ?_⟩
      rw [List.dropWhile_cons_of_neg h]
      rfl

/-- Trimming removes a front and a back segment. -/
theorem jsTrim_decomp (s : String) : ∃ u v, s.data = u ++ (jsTrim s).data ++ v := by
  obtain ⟨u, hu⟩ := dropWhile_decomp isWsChar s.data
  obtain ⟨u', hu'⟩ := dropWhile_decomp isWsChar (s.data.dropWhile isWsChar).reverse
  refine ⟨u, u'.reverse, ?_⟩
  have hmid : s.data.dropWhile isWsChar =
      ((s.data.dropWhile isWsChar).reverse.dropWhile isWsChar).reverse ++
        u'.reverse := by
    have hrev := congrArg List.reverse hu'
    simpa [List.reverse_append] using hrev
  calc s.data = u ++ s.data.dropWhile isWsChar := hu
    _ = u ++ (((s.data.dropWhile isWsChar).reverse.dropWhile isWsChar).reverse ++
        u'.reverse) := by rw [← hmid]
    _ = u ++ (jsTrim s).data ++ u'.reverse := by
        rw [List.append_assoc]
        rfl

/-- Letters and digits are word characters. -/
theorem isWordChar_of_alnum {ch : Char} (h : (ch.isAlpha || ch.isDigit) = true) :
    isWordChar ch = true := by
  simp only [Char.isAlpha, Char.isUpper, Char.isLower, Char.isDigit,
    Bool.or_eq_true, Bool.and_eq_true, decide_eq_true_eq] at h
  simp only [isWordChar, Bool.or_eq_true, Bool.and_eq_true, decide_eq_true_eq]
  tauto

/-- Stripping non-word characters from a purely alphanumeric word is the
identity. -/
theorem cleanWord_eq_self {w : String}
    (h : ∀ ch ∈ w.data, (ch.isAlpha || ch.isDigit) = true) : cleanWord w = w := by
  have hfilter : w.data.filter isWordChar = w.data :=
    List.filter_eq_self.mpr (fun ch hch => isWordChar_of_alnum (h ch hch))
  cases w with
  | mk d =>
    show String.mk (d.filter isWordChar) = String.mk d
    exact congrArg String.mk (by simpa using hfilter)

/-- No alphanumeric character occurs in the blank marker. -/
theorem alnum_not_marker {ch : Char} (h : (ch.isAlpha || ch.isDigit) = true) :
    ch ∉ blankMarker.data := by
  intro hmem
  have hu : ch = '_' := by
    have : blankMarker.data = ['_', '_', '_', '_', '_', '_'] := rfl
    rw [this] at hmem
    simpa using hmem
  subst hu
  exact absurd h (by decide)

end StudyApp

namespace StudyApp

/-! ## Claim C6 — fill-in-blank builder -/

/-- Claim C6, counterexample: in "alpha beta gamma alpha delta epsilon" the
middle word (position 3, "alpha") also occurs first; the code blanks the
FIRST occurrence of the word's text, so the middle-position word survives
and the returned answer still appears in the returned question. -/
theorem fill_blank_repeat_cex :
    generateFillInBlankCard ["alpha beta gamma alpha delta epsilon"] 0 0 =
      some { id := "card_0_0_fill",
             question := "Fill in the blank: ______ beta gamma alpha delta epsilon",
             answer := "alpha",
             difficulty := "basic",
             type := "fill_blank" } ∧
    (findSubstr "alpha".data
      "Fill in the blank: ______ beta gamma alpha delta epsilon".data).isSome
      = true := by
  refine ⟨by decide, by decide⟩

/-- Claim C6, amended: the builder returns no card when the list is empty or
the selected trimmed sentence has at most 5 single-space-separated words;
for a qualifying sentence the FIRST occurrence of the middle-index word's
text is replaced by the blank marker and the answer is that word stripped of
non-word characters; when the middle word is purely alphanumeric and occurs
exactly once in the full question template (prefix plus sentence), the
answer is a substring of the original sentence that does not appear in the
returned question. -/
theorem fill_blank_spec (sentences : List String) (index now : Nat) :
    (sentences = [] → generateFillInBlankCard sentences index now = none) ∧
    (¬ 5 < (fbWords sentences index).length →
      generateFillInBlankCard sentences index now = none) ∧
    (∀ c, generateFillInBlankCard sentences index now = some c →
      5 < (fbWords sentences index).length ∧
      c.answer = cleanWord (fbWord sentences index) ∧
      c.question = "Fill in the blank: " ++
        replaceFirstStr (fbSentence sentences index) (fbWord sentences index)
          blankMarker ∧
      ((∀ ch ∈ (fbWord sentences index).data, (ch.isAlpha || ch.isDigit) = true) →
        (occList (fbWord sentences index).data
          ("Fill in the blank: " ++ fbSentence sentences index).data).length = 1 →
        (∃ u v, (sentences.getD (index % sentences.length) "").data =
          u ++ c.answer.data ++ v) ∧
        findSubstr c.answer.data c.question.data = none)) := by
  refine ⟨?_, ?_, ?_⟩
  · rintro rfl
    rfl
  · intro h5
    unfold generateFillInBlankCard
    rcases sentences with _ | ⟨a, l⟩
    · rfl
    · simp only
      rw [if_neg h5]
  · intro c hc
    unfold generateFillInBlankCard at hc
    rcases sentences with _ | ⟨a, l⟩
    · exact absurd hc (by simp)
    simp only at hc
    by_cases h5 : 5 <
        (splitStr ' ' (jsTrim ((a :: l).getD (index % (a :: l).length) ""))).length
    · rw [if_pos h5] at hc
      injection hc with hc
      subst hc
      refine ⟨h5, rfl, rfl, ?_⟩
      simp only [fbWord, fbWords, fbSentence]
      intro halnum honce
      set E := (a :: l).getD (index % (a :: l).length) "" with hE
      set S := jsTrim E with hS
      set W := splitStr ' ' S with hWdef
      set w := W.getD (W.length / 2) "" with hwdef
      have hwne : w.data ≠ [] := by
        intro hnil
        rw [hnil, occList_nil_length] at honce
        have hlen19 : ("Fill in the blank: " ++ S).data.length =
            19 + S.data.length := by
          rw [strDataAppend]
          simp
          omega
        omega
      have hcw : cleanWord w = w := cleanWord_eq_self halnum
      have hmem : w ∈ W :=
        list_getD_mem W (W.length / 2) ""
          (Nat.div_lt_self (by omega) (by omega))
      obtain ⟨u1, v1, hS1⟩ := splitStr_piece hmem
      have hdrop1 : S.data.drop u1.length = w.data ++ v1 := by
        rw [hS1, List.append_assoc, List.drop_left]
      have hsome : (findSubstrAux w.data S.data 0).isSome :=
        findSubstrAux_isSome S.data u1.length 0
          ((leadsWith_iff _ _).mpr ⟨v1, hdrop1⟩)
      obtain ⟨i0, hi0⟩ := Option.isSome_iff_exists.mp hsome
      have hi0' : findSubstr w.data S.data = some i0 := hi0
      obtain ⟨k0, hk0, hlead0⟩ := findSubstrAux_some S.data 0 i0 hi0
      have hik : i0 = k0 := by omega
      subst hik
      have hdec0 := decomp_of_leadsWith_drop hlead0
      obtain ⟨A, B, hAB, hrep⟩ : ∃ A B, S.data = A ++ w.data ++ B ∧
          replaceFirst S.data w.data blankMarker.data =
            A ++ blankMarker.data ++ B := by
        refine ⟨S.data.take i0, S.data.drop (i0 + w.data.length), hdec0, ?_⟩
        simp [replaceFirst, hi0']
      rw [strDataAppend] at honce
      rw [hAB] at honce
      simp only [← List.append_assoc] at honce
      constructor
      · obtain ⟨u0, v0, hE0⟩ := jsTrim_decomp E
        refine ⟨u0 ++ A, B ++ v0, ?_⟩
        show E.data = (u0 ++ A) ++ (cleanWord w).data ++ (B ++ v0)
        rw [hcw, hE0, hAB]
        simp [List.append_assoc]
      · show findSubstr (cleanWord w).data
          ("Fill in the blank: " ++ replaceFirstStr S w blankMarker).data = none
        rw [hcw, strDataAppend]
        have hq : (replaceFirstStr S w blankMarker).data =
            A ++ blankMarker.data ++ B := hrep
        rw [hq]
        simp only [← List.append_assoc]
        exact findSubstr_replaced_none hwne (by decide)
          (fun ch hch => alnum_not_marker (halnum ch hch)) honce
    · rw [if_neg h5] at hc
      exact absurd hc (by simp)

end StudyApp

namespace StudyApp

/-- Witness for `fill_blank_spec`: a qualifying sentence whose middle word
"foxes" is alphanumeric and occurs once; the answer is a substring of the
sentence and absent from the question. -/
theorem fill_blank_spec_witness :
    generateFillInBlankCard ["the quick brown foxes jumped over walls"] 0 0 =
      some { id := "card_0_0_fill",
             question := "Fill in the blank: the quick brown ______ jumped over walls",
             answer := "foxes", difficulty := "basic", type := "fill_blank" } ∧
    ((∃ u v, ((["the quick brown foxes jumped over walls"] : List String).getD
        (0 % (["the quick brown foxes jumped over walls"] : List String).length)
        "").data = u ++ ("foxes" : String).data ++ v) ∧
     findSubstr ("foxes" : String).data
      ("Fill in the blank: the quick brown ______ jumped over walls" : String).data
        = none) := by
  refine ⟨by decide, ?_⟩
  exact ((fill_blank_spec ["the quick brown foxes jumped over walls"] 0 0).2.2
    { id := "card_0_0_fill",
      question := "Fill in the blank: the quick brown ______ jumped over walls",
      answer := "foxes", difficulty := "basic", type := "fill_blank" }
    (by decide)).2.2.2 (by decide) (by decide)

end StudyApp
